import Mathlib

/-!
Shallow embedding of the HubSpot-detector repository (src/main.py and
src/app.py).  Python strings are modelled as `List Char`; the HTTP
transport is modelled as a function from the request URL to an explicit
outcome, with each `requests` exception kind an explicit constructor.
-/

/-- Python strings are modelled as lists of characters. -/
abbrev Str := List Char

/-- Characters stripped by Python's `str.strip()` (ASCII whitespace). -/
def isPySpace (c : Char) : Bool :=
  c = ' ' || c = '\t' || c = '\n' || c = '\r' || c = '\x0b' || c = '\x0c'

/-- Model of Python `str.strip()`: drop whitespace from both ends. -/
def pyStrip (s : Str) : Str :=
  ((s.dropWhile isPySpace).reverse.dropWhile isPySpace).reverse

/-- Model of Python `str.lower()` (ASCII letters, as in `Char.toLower`). -/
def pyLower (s : Str) : Str :=
  s.map Char.toLower

/-- Model of Python `str.split(sep)` for a one-character separator:
empty parts are preserved and the result is always non-empty. -/
def pySplit (sep : Char) : Str → List Str
  | [] => [[]]
  | c :: rest =>
    if c = sep then
      [] :: pySplit sep rest
    else
      match pySplit sep rest with
      | [] => [[c]]
      | p :: ps => (c :: p) :: ps

/-- Model of Python `s[:50]`. -/
def truncate50 (s : Str) : Str := s.take 50

/-- Model of Python `x or default` on an optional string: `None` and the
empty string are falsy. -/
def pyOrElse (o : Option Str) (d : Str) : Str :=
  match o with
  | none => d
  | some s => if s = [] then d else s

/-- Embedding of `extract_domain_from_email` (identical in src/main.py
lines 15-20 and src/app.py lines 26-31): strip, and if the result
contains an at-sign return the part after the last at-sign, lowercased. -/
def extract_domain_from_email (email : Str) : Option Str :=
  let e := pyStrip email
  if '@' ∈ e then
    some (pyLower ((pySplit '@' e).getLastD []))
  else
    none

/-- Helper: the guarded extraction `domain = extract(...); if domain:` —
Python truthiness also rejects the empty string. -/
def truthyDomain (cell : Str) : Option Str :=
  match extract_domain_from_email cell with
  | some d => if d = [] then none else some d
  | none => none

/-! ## Content classifier (src/main.py 135-147, src/app.py 67-78) -/

/-- The six HubSpot indicator substrings, in source order. -/
def hubspot_patterns : List Str :=
  [ "hubspot".data,
    "hs-scripts.com".data,
    "js.hs-scripts.com".data,
    "js.hsforms.net".data,
    "hbspt.forms".data,
    "hbspt.cta".data ]

/-- Model of Python `pat in hay`: contiguous-substring (infix) search. -/
def containsSub (hay pat : Str) : Bool :=
  decide (pat <:+: hay)

/-- The pattern loop of both probers: a positive match as soon as one
pattern occurs in the (already lowercased) body. -/
def classify (html : Str) : Bool :=
  hubspot_patterns.any (fun p => containsSub html p)

/-! ## Transport model -/

/-- Outcome of one `GET` issued by the transport for one URL.  A
successful HTTP exchange carries the status code, the message of the
`HTTPError` that `raise_for_status` would raise were the status 4xx/5xx,
the body text, and the post-redirect final URL.  The remaining
constructors are the four exception kinds the probers catch, in the
order of their `except` clauses. -/
inductive FetchOutcome where
  | success (status : Nat) (errMsg : Str) (body : Str) (finalUrl : Str)
  | sslError
  | connError
  | timeout
  | otherError (msg : Str)
deriving DecidableEq

/-- A transport assigns one outcome to every URL (deterministic mock). -/
abbrev Transport := Str → FetchOutcome

/-- Statuses for which `response.raise_for_status()` raises (4xx/5xx). -/
def isHttpError (status : Nat) : Bool :=
  400 ≤ status && status < 600

/-- An outcome on which the probers stop and classify: a successful
exchange whose status `raise_for_status` accepts (not 4xx/5xx; the 403
branch is subsumed). -/
def usableOutcome : FetchOutcome → Bool
  | .success status _ _ _ => !(isHttpError status)
  | _ => false

/-- The `last_error` string each non-usable outcome gets recorded as. -/
def failReason : FetchOutcome → Str
  | .success status errMsg _ _ =>
      if status = 403 then ("403 Forbidden".data) else truncate50 errMsg
  | .sslError => "SSL Error".data
  | .connError => "Connection Error".data
  | .timeout => "Timeout".data
  | .otherError msg => truncate50 msg

/-- The fixed URL-variant list (src/main.py 102-107, src/app.py 39-44). -/
def urls_to_try (domain : Str) : List Str :=
  [ "https://".data ++ domain,
    "https://www.".data ++ domain,
    "http://".data ++ domain,
    "http://www.".data ++ domain ]

/-! ## CLI prober, src/main.py `check_hubspot` (lines 89-165) -/

/-- Result dict of the CLI prober. -/
structure MainResult where
  domain : Str
  has_hubspot : Bool
  url : Str
  error : Str
deriving DecidableEq

/-- The `for url in urls_to_try` loop of src/main.py, with the running
`last_error`.  Every exception kind records a reason and continues; a 403
records and continues; any other 4xx/5xx records the `HTTPError` message
and continues; a usable response is classified and returned at once. -/
def mainLoop (T : Transport) (domain : Str) :
    List Str → Option Str → MainResult
  | [], lastError =>
      { domain := domain, has_hubspot := false, url := [],
        error := pyOrElse lastError ("Unknown Error".data) }
  | url :: rest, lastError =>
    match T url with
    | .success status errMsg body finalUrl =>
        if status = 403 then
          mainLoop T domain rest (some ("403 Forbidden".data))
        else if isHttpError status then
          mainLoop T domain rest (some (truncate50 errMsg))
        else
          { domain := domain, has_hubspot := classify (pyLower body),
            url := finalUrl, error := [] }
    | .sslError => mainLoop T domain rest (some ("SSL Error".data))
    | .connError => mainLoop T domain rest (some ("Connection Error".data))
    | .timeout => mainLoop T domain rest (some ("Timeout".data))
    | .otherError msg => mainLoop T domain rest (some (truncate50 msg))

/-- Embedding of src/main.py `check_hubspot`. -/
def check_hubspot_main (T : Transport) (domain : Str) : MainResult :=
  mainLoop T domain (urls_to_try domain) none

/-! ## Web prober, src/app.py `check_hubspot` (lines 34-95) -/

/-- The `for url in urls_to_try` loop of src/app.py.  It differs from the
CLI loop in its return shape, in the `Timeout` branch (`break`: the
remaining variants are skipped and the error result is returned), and in
the fallback string `"Unknown"`. -/
def appLoop (T : Transport) : List Str → Option Str → Str × Str
  | [], lastError =>
      ([], "Error: ".data ++ pyOrElse lastError ("Unknown".data))
  | url :: rest, lastError =>
    match T url with
    | .success status errMsg body finalUrl =>
        if status = 403 then
          appLoop T rest (some ("403 Forbidden".data))
        else if isHttpError status then
          appLoop T rest (some (truncate50 errMsg))
        else
          (finalUrl, if classify (pyLower body) then ("Yes".data) else ("No".data))
    | .sslError => appLoop T rest (some ("SSL Error".data))
    | .connError => appLoop T rest (some ("Connection Error".data))
    | .timeout =>
        ([], "Error: ".data ++ pyOrElse (some ("Timeout".data)) "Unknown".data)
    | .otherError msg => appLoop T rest (some (truncate50 msg))

/-- Embedding of src/app.py `check_hubspot`. -/
def check_hubspot_app (T : Transport) (domain : Str) : Str × Str :=
  appLoop T (urls_to_try domain) none

/-! ## Common classification abstraction -/

/-- Tri-state outcome of a probe, as in the spec's data model. -/
inductive Classification where
  | yes
  | no
  | error (reason : Str)
deriving DecidableEq

/-- Classification carried by a CLI result: its `error` field is empty
exactly on the success path. -/
def mainClassification (r : MainResult) : Classification :=
  if r.error = [] then
    (if r.has_hubspot then .yes else .no)
  else
    .error r.error

/-- Classification carried by a web-app result pair: the status string is
`"Yes"`, `"No"`, or `"Error: <reason>"`. -/
def appClassification (p : Str × Str) : Classification :=
  if p.2 = "Yes".data then .yes
  else if p.2 = "No".data then .no
  else .error (p.2.drop 7)

/-- Observable outcome of the CLI prober: resolved URL and class. -/
def mainOutcome (r : MainResult) : Str × Classification :=
  (r.url, mainClassification r)

/-- Observable outcome of the web prober: resolved URL and class. -/
def appOutcome (p : Str × Str) : Str × Classification :=
  (p.1, appClassification p)

/-! ## Domain collection (src/main.py 52-59, src/app.py 113-130) -/

/-- Embedding of src/main.py `get_unique_domains`: collect the truthy
extracted domains into a set and return them sorted (`sorted(set(...))`
is modelled as sorting the deduplicated list). -/
def get_unique_domains (emails : List Str) : List Str :=
  List.insertionSort (· ≤ ·) ((emails.filterMap truthyDomain).dedup)

/-- Email-column sniffing shared by both files (src/main.py 31-39 without
the data-row rescue, src/app.py 113-120): first case-insensitive match
among `email`, `e-mail`, `mail`, else column 0. -/
def find_email_col (header : List Str) : Nat :=
  let hl := header.map (fun h => pyStrip (pyLower h))
  if ("email".data) ∈ hl then hl.indexOf ("email".data)
  else if ("e-mail".data) ∈ hl then hl.indexOf ("e-mail".data)
  else if ("mail".data) ∈ hl then hl.indexOf ("mail".data)
  else 0

/-- One row's contribution of a domain (src/app.py 124-128 and 169-170):
the row must reach the email column and the extraction must be truthy. -/
def rowDomain (email_col : Nat) (row : List Str) : Option Str :=
  if email_col < row.length then truthyDomain (row.getD email_col []) else none

/-- The `domains_to_scan` set of src/app.py `process_csv` (122-130),
sorted. -/
def domains_to_scan (rows : List (List Str)) (email_col : Nat) : List Str :=
  List.insertionSort (· ≤ ·) ((rows.filterMap (rowDomain email_col)).dedup)

/-- The per-domain result mapping of src/app.py (137-145): the prober is
called once per entry of `domains_to_scan`, so the number of prober
invocations is the length of this list. -/
def domain_results_list (rows : List (List Str)) (email_col : Nat)
    (probe : Str → Str × Str) : List (Str × (Str × Str)) :=
  (domains_to_scan rows email_col).map (fun d => (d, probe d))

/-- Dictionary lookup in the per-domain mapping. -/
def lookupRes : List (Str × (Str × Str)) → Str → Option (Str × Str)
  | [], _ => none
  | (k, v) :: rest, d => if k = d then some v else lookupRes rest d

/-- Embedding of the output-row loop of src/app.py `process_csv`
(164-179).  A row that does not reach the email column produces nothing
(the `elif include_all` at line 178 is nested inside the length guard);
a mapped row is dropped when `include_all` is unset and the status is not
`"Yes"`, and otherwise gains the two result fields; a row whose
extraction is falsy gains two empty fields exactly when `include_all`. -/
def process_output_rows (rows : List (List Str)) (email_col : Nat)
    (probe : Str → Str × Str) (include_all : Bool) : List (List Str) :=
  let dres := domain_results_list rows email_col probe
  rows.filterMap (fun row =>
    if email_col < row.length then
      match truthyDomain (row.getD email_col []) with
      | some d =>
        match lookupRes dres d with
        | some (u, s) =>
            if include_all = false ∧ s ≠ "Yes".data then none
            else some (row ++ [u, s])
        | none => if include_all then some (row ++ [[], []]) else none
      | none => if include_all then some (row ++ [[], []]) else none
    else none)

/-- Embedding of src/app.py `process_csv` restricted to its observable
output rows, with the email column sniffed from the header row. -/
def process_csv (header : List Str) (rows : List (List Str))
    (probe : Str → Str × Str) (include_all : Bool) : List (List Str) :=
  process_output_rows rows (find_email_col header) probe include_all

/-! ## CSV reader, src/main.py `read_emails_from_csv` (lines 23-49) -/

/-- Embedding of src/main.py `read_emails_from_csv` on the parsed rows:
the first row is sniffed for the email column; when no header cell
matches and its first cell contains an at-sign it is itself kept as
data; every later row that reaches the email column contributes that
cell. -/
def read_emails_from_csv (rows : List (List Str)) : List Str :=
  match rows with
  | [] => []
  | header :: rest =>
    let collect := fun (email_col : Nat) (pre : List Str) =>
      pre ++ rest.filterMap (fun row =>
        if row ≠ [] ∧ email_col < row.length then
          some (row.getD email_col [])
        else none)
    if header = [] then collect 0 []
    else
      let hl := header.map (fun h => pyStrip (pyLower h))
      if ("email".data) ∈ hl then collect (hl.indexOf ("email".data)) []
      else if ("e-mail".data) ∈ hl then collect (hl.indexOf ("e-mail".data)) []
      else if ("mail".data) ∈ hl then collect (hl.indexOf ("mail".data)) []
      else if '@' ∈ header.getD 0 [] then collect 0 [header.getD 0 []]
      else collect 0 []

/-! ## Spec-side comparison definitions and example transports -/

/-- The five-pattern list that omits `js.hs-scripts.com`, written from
the spec's words for the comparison. -/
def hubspot_patterns_reduced : List Str :=
  [ "hubspot".data,
    "hs-scripts.com".data,
    "js.hsforms.net".data,
    "hbspt.forms".data,
    "hbspt.cta".data ]

/-- Classification with the reduced pattern list. -/
def classify_reduced (html : Str) : Bool :=
  hubspot_patterns_reduced.any (fun p => containsSub html p)

/-- The spec's mocked transport: `https://domain` answers 403 and
`https://www.domain` answers 200 with a body containing `hubspot`. -/
def exTransportC1 : Transport := fun url =>
  if url = "https://domain".data then
    .success 403 ("403 Client Error".data) "forbidden".data ("https://domain".data)
  else if url = "https://www.domain".data then
    .success 200 [] "<html>a hubspot page</html>".data ("https://www.domain".data)
  else
    .connError

/-- Transport where the bare-HTTPS variant times out and the www-HTTPS
variant would succeed with a HubSpot body. -/
def exTransportC2 : Transport := fun url =>
  if url = "https://domain".data then
    .timeout
  else if url = "https://www.domain".data then
    .success 200 [] "<html>a hubspot page</html>".data ("https://www.domain".data)
  else
    .connError

/-- Transport where every variant raises a request error with an empty
message (`str(e)` of a bare `RequestException` is empty). -/
def exTransportC5 : Transport := fun _ => .otherError []

/-- Transport outcomes on which the two probers cannot diverge: no
timeout, and any failure records a non-empty reason. -/
def benignOutcome (o : FetchOutcome) : Prop :=
  o ≠ .timeout ∧ (usableOutcome o = false → failReason o ≠ [])

instance benignOutcome_decidable (o : FetchOutcome) :
    Decidable (benignOutcome o) :=
  inferInstanceAs
    (Decidable ((o ≠ .timeout) ∧ (usableOutcome o = false → failReason o ≠ [])))

/-! ## Helper lemmas -/

theorem pyOrElse_ne_nil (o : Option Str) {d : Str} (hd : d ≠ []) :
    pyOrElse o d ≠ [] := by
  cases o with
  | none => exact hd
  | some s =>
    by_cases hs : s = []
    · simp [pyOrElse, hs, hd]
    · simp [pyOrElse, hs]

theorem err_prefixed (r : Str) :
    "Error: ".data ++ r ≠ "Yes".data ∧ "Error: ".data ++ r ≠ "No".data ∧
    ("Error: ".data ++ r).drop 7 = r := by
  refine ⟨?_, ?_, rfl⟩ <;> intro h <;> exact absurd (List.head_eq_of_cons_eq h) (by decide)

theorem appClassification_err (u : Str) (r : Str) :
    appClassification (u, "Error: ".data ++ r) = .error r := by
  obtain ⟨h1, h2, h3⟩ := err_prefixed r
  simp only [appClassification, h1, h2, if_false, if_neg h1, if_neg h2, h3]

/-! ## Claim C4: classifier contract -/

/-- Claim C4: the classifier returns a positive match iff the lowercased
body contains at least one of the six fixed substrings, detection being
case-insensitive substring search; the script-tag example body is
positive and the plain-HTML example body is negative. -/
theorem claim_C4_classifier_contract (body : Str) :
    (classify (pyLower body) = true ↔
      ("hubspot".data <:+: pyLower body ∨
       "hs-scripts.com".data <:+: pyLower body ∨
       "js.hs-scripts.com".data <:+: pyLower body ∨
       "js.hsforms.net".data <:+: pyLower body ∨
       "hbspt.forms".data <:+: pyLower body ∨
       "hbspt.cta".data <:+: pyLower body)) ∧
    classify (pyLower ("<script src='//js.hs-scripts.com/123.js'>".data)) = true ∧
    classify (pyLower ("<html><body>hello</body></html>".data)) = false := by
  refine ⟨?_, by decide, by decide⟩
  simp [classify, hubspot_patterns, containsSub]

/-! ## Claim C8: pattern redundancy -/

/-- Claim C8: `js.hs-scripts.com` is redundant with `hs-scripts.com`:
for every body the six-pattern classification equals the five-pattern
classification, because any body containing the longer substring also
contains the shorter one. -/
theorem claim_C8_pattern_redundancy (html : Str) :
    classify html = classify_reduced html ∧
    ("js.hs-scripts.com".data <:+: html → "hs-scripts.com".data <:+: html) := by
  have key : ∀ s : Str, "js.hs-scripts.com".data <:+: s → "hs-scripts.com".data <:+: s :=
    fun s h => List.IsInfix.trans (by decide) h
  refine ⟨?_, key html⟩
  by_cases h3 : "js.hs-scripts.com".data <:+: html
  · have h2 : "hs-scripts.com".data <:+: html := key html h3
    simp [classify, classify_reduced, hubspot_patterns, hubspot_patterns_reduced,
      containsSub, h2, h3]
  · simp [classify, classify_reduced, hubspot_patterns, hubspot_patterns_reduced,
      containsSub, h3]

/-! ## Split lemmas for the extractor -/

theorem pySplit_ne_nil (sep : Char) (s : Str) : pySplit sep s ≠ [] := by
  cases s with
  | nil => simp [pySplit]
  | cons c rest =>
    simp only [pySplit]
    split
    · simp
    · split <;> simp

theorem pySplit_of_not_mem {sep : Char} {s : Str} (h : sep ∉ s) :
    pySplit sep s = [s] := by
  induction s with
  | nil => rfl
  | cons c rest ih =>
    have hc : ¬ c = sep := fun hcs => h (hcs ▸ List.mem_cons_self c rest)
    have hr : sep ∉ rest := fun hm => h (List.mem_cons_of_mem c hm)
    simp only [pySplit, if_neg hc, ih hr]

theorem pySplit_two_le {sep : Char} {s : Str} (h : sep ∈ s) :
    2 ≤ (pySplit sep s).length := by
  induction s with
  | nil => cases h
  | cons c rest ih =>
    by_cases hc : c = sep
    · simp only [pySplit, if_pos hc, List.length_cons]
      have := pySplit_ne_nil sep rest
      have : 1 ≤ (pySplit sep rest).length := List.length_pos.mpr this
      omega
    · have hr : sep ∈ rest := by
        cases List.mem_cons.mp h with
        | inl he => exact absurd he.symm hc
        | inr hm => exact hm
      have h2 := ih hr
      simp only [pySplit, if_neg hc]
      cases hps : pySplit sep rest with
      | nil => exact absurd hps (pySplit_ne_nil sep rest)
      | cons p ps =>
        rw [hps] at h2
        simpa using h2

theorem getLastD_of_ne_nil {α : Type} {l : List α} (h : l ≠ []) (a b : α) :
    l.getLastD a = l.getLastD b := by
  cases l with
  | nil => exact absurd rfl h
  | cons x xs => rfl

theorem pySplit_cons_self (sep : Char) (rest : Str) :
    pySplit sep (sep :: rest) = [] :: pySplit sep rest := by
  simp [pySplit]

theorem pySplit_cons_ne {sep c : Char} (rest : Str) (hc : ¬ c = sep)
    {q : Str} {qs : List Str} (hps : pySplit sep rest = q :: qs) :
    pySplit sep (c :: rest) = (c :: q) :: qs := by
  simp only [pySplit, if_neg hc, hps]

/-- The last part of a split is the suffix after the last separator. -/
theorem pySplit_getLastD_spec {sep : Char} {s : Str} (h : sep ∈ s) :
    ∃ p, s = p ++ sep :: (pySplit sep s).getLastD [] ∧
      sep ∉ (pySplit sep s).getLastD [] := by
  induction s with
  | nil => cases h
  | cons c rest ih =>
    by_cases hc : c = sep
    · subst hc
      rw [pySplit_cons_self]
      by_cases hr : c ∈ rest
      · obtain ⟨p, hp, hn⟩ := ih hr
        have hlast : ([] :: pySplit c rest).getLastD ([] : Str) =
            (pySplit c rest).getLastD [] := by
          cases hps : pySplit c rest with
          | nil => exact absurd hps (pySplit_ne_nil c rest)
          | cons q qs => rfl
        rw [hlast]
        refine ⟨c :: p, ?_, hn⟩
        conv_lhs => rw [hp]
        rfl
      · rw [pySplit_of_not_mem hr]
        exact ⟨[], rfl, hr⟩
    · have hr : sep ∈ rest := by
        cases List.mem_cons.mp h with
        | inl he => exact absurd he.symm hc
        | inr hm => exact hm
      obtain ⟨p, hp, hn⟩ := ih hr
      have h2 := pySplit_two_le hr
      cases hps : pySplit sep rest with
      | nil => exact absurd hps (pySplit_ne_nil sep rest)
      | cons q qs =>
        rw [hps] at h2
        have hqs : qs ≠ [] := by
          intro hqe
          rw [hqe] at h2
          simp at h2
        rw [pySplit_cons_ne rest hc hps]
        have hlast : ((c :: q) :: qs).getLastD ([] : Str) =
            (q :: qs).getLastD [] := by
          cases qs with
          | nil => exact absurd rfl hqs
          | cons y ys => rfl
        rw [hlast, ← hps]
        refine ⟨c :: p, ?_, hn⟩
        conv_lhs => rw [hp]
        rfl

/-! ## Claim C9: domain extraction -/

/-- Claim C9: after trimming surrounding whitespace, an email containing
an at-sign yields the lowercased substring after the last at-sign, and an
email without one yields no domain; the two spec examples hold. -/
theorem claim_C9_extract_domain (email : Str) :
    (('@' ∈ pyStrip email) →
      ∃ p s, pyStrip email = p ++ '@' :: s ∧ '@' ∉ s ∧
        extract_domain_from_email email = some (pyLower s)) ∧
    (('@' ∉ pyStrip email) → extract_domain_from_email email = none) ∧
    extract_domain_from_email ("John@Example.COM".data) = some ("example.com".data) ∧
    extract_domain_from_email ("not-an-email".data) = none := by
  refine ⟨?_, ?_, by decide, by decide⟩
  · intro h
    obtain ⟨p, hp, hn⟩ := pySplit_getLastD_spec h
    refine ⟨p, (pySplit '@' (pyStrip email)).getLastD [], hp, hn, ?_⟩
    simp only [extract_domain_from_email, if_pos h]
  · intro h
    simp only [extract_domain_from_email, if_neg h]

/-- Witness for claim C9 at the spec's own example input. -/
theorem claim_C9_witness :
    ∃ p s, pyStrip ("John@Example.COM".data) = p ++ '@' :: s ∧ '@' ∉ s ∧
      extract_domain_from_email ("John@Example.COM".data) = some (pyLower s) :=
  (claim_C9_extract_domain ("John@Example.COM".data)).1 (by decide)

/-! ## Lowercasing is idempotent -/

theorem char_toNat_ofNat {n : Nat} (h : n.isValidChar) :
    (Char.ofNat n).toNat = n := by
  simp [Char.ofNat, dif_pos h, Char.ofNatAux, Char.toNat, UInt32.toNat]

theorem char_toLower_idem (c : Char) : c.toLower.toLower = c.toLower := by
  unfold Char.toLower
  by_cases h : c.toNat ≥ 65 ∧ c.toNat ≤ 90
  · rw [if_pos h]
    have hv : (c.toNat + 32).isValidChar := Or.inl (by omega)
    rw [if_neg]
    rw [char_toNat_ofNat hv]
    omega
  · rw [if_neg h, if_neg h]

theorem pyLower_idem (s : Str) : pyLower (pyLower s) = pyLower s := by
  simp only [pyLower, List.map_map]
  exact List.map_congr_left (fun c _ => char_toLower_idem c)

/-! ## Claim C6: unique sorted domain list -/

theorem truthyDomain_eq_some {e d : Str} :
    truthyDomain e = some d ↔
      (extract_domain_from_email e = some d ∧ d ≠ []) := by
  unfold truthyDomain
  cases hx : extract_domain_from_email e with
  | none => simp
  | some d' =>
    by_cases hd' : d' = []
    · subst hd'
      simp
    · simp only [if_neg hd', Option.some.injEq]
      constructor
      · rintro rfl
        exact ⟨rfl, hd'⟩
      · rintro ⟨h, _⟩
        exact h

theorem extract_some_lower {e d : Str}
    (h : extract_domain_from_email e = some d) : pyLower d = d := by
  simp only [extract_domain_from_email] at h
  by_cases hm : '@' ∈ pyStrip e
  · rw [if_pos hm] at h
    cases h
    exact pyLower_idem _
  · rw [if_neg hm] at h
    cases h

/-- Claim C6: the scanned domain sequence contains exactly the non-empty
extracted domains, has no duplicates, is strictly ascending, is no longer
than the list of valid extractions, consists of non-empty lowercase
strings, and is invariant under permutation of the input emails. -/
theorem claim_C6_unique_sorted_domains (emails : List Str) :
    (∀ d, d ∈ get_unique_domains emails ↔
      (d ≠ [] ∧ ∃ e ∈ emails, extract_domain_from_email e = some d)) ∧
    (get_unique_domains emails).Nodup ∧
    List.Sorted (· < ·) (get_unique_domains emails) ∧
    (get_unique_domains emails).length ≤ (emails.filterMap truthyDomain).length ∧
    (∀ d ∈ get_unique_domains emails, d ≠ [] ∧ pyLower d = d) ∧
    (∀ emails', emails.Perm emails' →
      get_unique_domains emails = get_unique_domains emails') := by
  haveI hat : IsAntisymm Str (· ≤ ·) := ⟨fun _ _ => le_antisymm⟩
  have hmem : ∀ d, d ∈ get_unique_domains emails ↔
      ∃ e ∈ emails, truthyDomain e = some d := by
    intro d
    unfold get_unique_domains
    rw [(List.perm_insertionSort _ _).mem_iff, List.mem_dedup, List.mem_filterMap]
  have hnd : (get_unique_domains emails).Nodup :=
    ((List.perm_insertionSort _ _).nodup_iff).mpr (List.nodup_dedup _)
  have hsle : List.Sorted (· ≤ ·) (get_unique_domains emails) :=
    List.sorted_insertionSort _ _
  refine ⟨?_, hnd, hsle.lt_of_le hnd, ?_, ?_, ?_⟩
  · intro d
    rw [hmem d]
    constructor
    · rintro ⟨e, he, ht⟩
      obtain ⟨hx, hne⟩ := truthyDomain_eq_some.mp ht
      exact ⟨hne, e, he, hx⟩
    · rintro ⟨hne, e, he, hx⟩
      exact ⟨e, he, truthyDomain_eq_some.mpr ⟨hx, hne⟩⟩
  · calc (get_unique_domains emails).length
        = ((emails.filterMap truthyDomain).dedup).length :=
          (List.perm_insertionSort _ _).length_eq
      _ ≤ (emails.filterMap truthyDomain).length :=
          (List.dedup_sublist _).length_le
  · intro d hd
    obtain ⟨e, _, ht⟩ := (hmem d).mp hd
    obtain ⟨hx, hne⟩ := truthyDomain_eq_some.mp ht
    exact ⟨hne, extract_some_lower hx⟩
  · intro emails' hperm
    refine List.eq_of_perm_of_sorted ?_
      (List.sorted_insertionSort _ _) (List.sorted_insertionSort _ _)
    exact (List.perm_insertionSort _ _).trans
      (((hperm.filterMap truthyDomain).dedup).trans
        (List.perm_insertionSort _ _).symm)

/-- Witness for claim C6: permutation invariance at a concrete input. -/
theorem claim_C6_witness :
    get_unique_domains ["b@Y.com".data, "a@x.com".data, "B@y.COM".data] =
      get_unique_domains ["a@x.com".data, "B@y.COM".data, "b@Y.com".data] :=
  (claim_C6_unique_sorted_domains
    ["b@Y.com".data, "a@x.com".data, "B@y.COM".data]).2.2.2.2.2
    ["a@x.com".data, "B@y.COM".data, "b@Y.com".data] (by decide)

/-! ## Prober step lemmas -/

theorem mainLoop_fail_step (T : Transport) (d u : Str) (rest : List Str)
    (le : Option Str) (hu : usableOutcome (T u) = false) :
    mainLoop T d (u :: rest) le = mainLoop T d rest (some (failReason (T u))) := by
  cases hTu : T u with
  | success st em b fu =>
    have hhe : isHttpError st = true := by
      have h := hu
      rw [hTu] at h
      simpa [usableOutcome] using h
    by_cases h403 : st = 403
    · simp [mainLoop, hTu, h403, failReason]
    · simp [mainLoop, hTu, h403, hhe, failReason]
  | sslError => simp [mainLoop, hTu, failReason]
  | connError => simp [mainLoop, hTu, failReason]
  | timeout => simp [mainLoop, hTu, failReason]
  | otherError m => simp [mainLoop, hTu, failReason]

theorem mainLoop_usable_step (T : Transport) (d u : Str) (rest : List Str)
    (le : Option Str) (st : Nat) (em b fu : Str)
    (hTu : T u = .success st em b fu) (hok : isHttpError st = false) :
    mainLoop T d (u :: rest) le =
      { domain := d, has_hubspot := classify (pyLower b), url := fu, error := [] } := by
  have h403 : ¬ st = 403 := by
    intro h
    rw [h] at hok
    exact absurd hok (by decide)
  simp [mainLoop, hTu, h403, hok]

theorem appLoop_fail_step (T : Transport) (u : Str) (rest : List Str)
    (le : Option Str) (hu : usableOutcome (T u) = false)
    (ht : T u ≠ .timeout) :
    appLoop T (u :: rest) le = appLoop T rest (some (failReason (T u))) := by
  cases hTu : T u with
  | success st em b fu =>
    have hhe : isHttpError st = true := by
      have h := hu
      rw [hTu] at h
      simpa [usableOutcome] using h
    by_cases h403 : st = 403
    · simp [appLoop, hTu, h403, failReason]
    · simp [appLoop, hTu, h403, hhe, failReason]
  | sslError => simp [appLoop, hTu, failReason]
  | connError => simp [appLoop, hTu, failReason]
  | timeout => exact absurd hTu ht
  | otherError m => simp [appLoop, hTu, failReason]

theorem appLoop_usable_step (T : Transport) (u : Str) (rest : List Str)
    (le : Option Str) (st : Nat) (em b fu : Str)
    (hTu : T u = .success st em b fu) (hok : isHttpError st = false) :
    appLoop T (u :: rest) le =
      (fu, if classify (pyLower b) then ("Yes".data) else ("No".data)) := by
  have h403 : ¬ st = 403 := by
    intro h
    rw [h] at hok
    exact absurd hok (by decide)
  simp [appLoop, hTu, h403, hok]

theorem appLoop_timeout_step (T : Transport) (u : Str) (rest : List Str)
    (le : Option Str) (ht : T u = .timeout) :
    appLoop T (u :: rest) le = ([], "Error: Timeout".data) := by
  simp [appLoop, ht, pyOrElse]

theorem mainLoop_exhaust (T : Transport) (d : Str) :
    ∀ L : List Str, (∀ v ∈ L, usableOutcome (T v) = false) → ∀ le, L ≠ [] →
      mainLoop T d L le =
        { domain := d, has_hubspot := false, url := [],
          error := pyOrElse (some (failReason (T (L.getLastD []))))
            "Unknown Error".data } := by
  intro L
  induction L with
  | nil =>
    intro _ le h
    exact absurd rfl h
  | cons u rest ih =>
    intro hall le _
    rw [mainLoop_fail_step T d u rest le (hall u (List.mem_cons_self u rest))]
    cases rest with
    | nil => simp [mainLoop, List.getLastD]
    | cons u' rest' =>
      exact ih (fun v hv => hall v (List.mem_cons_of_mem u hv))
        (some (failReason (T u))) (by simp)

theorem appLoop_exhaust (T : Transport) :
    ∀ L : List Str,
      (∀ v ∈ L, usableOutcome (T v) = false ∧ T v ≠ .timeout) → ∀ le, L ≠ [] →
      appLoop T L le =
        ([], "Error: ".data ++
          pyOrElse (some (failReason (T (L.getLastD [])))) "Unknown".data) := by
  intro L
  induction L with
  | nil =>
    intro _ le h
    exact absurd rfl h
  | cons u rest ih =>
    intro hall le _
    obtain ⟨hu, ht⟩ := hall u (List.mem_cons_self u rest)
    rw [appLoop_fail_step T u rest le hu ht]
    cases rest with
    | nil => simp [appLoop, List.getLastD]
    | cons u' rest' =>
      exact ih (fun v hv => hall v (List.mem_cons_of_mem u hv))
        (some (failReason (T u))) (by simp)

/-! ## Claim C1: variant order, 403 fallback, first-success stop -/

/-- Claim C1: the prober tries the four variants in the fixed order; a
403 records `403 Forbidden` as the last error and advances; the first
variant with a usable body stops the probe immediately (independent of
the remaining variants), its body classified and its final URL reported;
and on the spec's mocked transport the result is Yes at the www variant.
Both probers are covered. -/
theorem claim_C1_variant_order_first_success (domain : Str) (T : Transport) :
    (urls_to_try domain =
      [ "https://".data ++ domain, "https://www.".data ++ domain,
        "http://".data ++ domain, "http://www.".data ++ domain ]) ∧
    (∀ url rest le em b fu, T url = .success 403 em b fu →
      mainLoop T domain (url :: rest) le =
        mainLoop T domain rest (some ("403 Forbidden".data)) ∧
      appLoop T (url :: rest) le =
        appLoop T rest (some ("403 Forbidden".data))) ∧
    (∀ url rest le st em b fu, T url = .success st em b fu →
      isHttpError st = false →
      mainLoop T domain (url :: rest) le =
        { domain := domain, has_hubspot := classify (pyLower b),
          url := fu, error := [] } ∧
      appLoop T (url :: rest) le =
        (fu, if classify (pyLower b) then ("Yes".data) else ("No".data))) ∧
    check_hubspot_main exTransportC1 ("domain".data) =
      { domain := "domain".data, has_hubspot := true,
        url := "https://www.domain".data, error := [] } ∧
    check_hubspot_app exTransportC1 ("domain".data) =
      ("https://www.domain".data, "Yes".data) := by
  refine ⟨rfl, ?_, ?_, by decide, by decide⟩
  · intro url rest le em b fu hTu
    constructor
    · have := mainLoop_fail_step T domain url rest le (by simp [usableOutcome, hTu, isHttpError])
      rw [this, hTu]
      simp [failReason]
    · have := appLoop_fail_step T url rest le (by simp [usableOutcome, hTu, isHttpError]) (by simp [hTu])
      rw [this, hTu]
      simp [failReason]
  · intro url rest le st em b fu hTu hok
    exact ⟨mainLoop_usable_step T domain url rest le st em b fu hTu hok,
      appLoop_usable_step T url rest le st em b fu hTu hok⟩

/-- Witness for claim C1: the 403 step and the usable step discharged on
the mocked transport. -/
theorem claim_C1_witness :
    mainLoop exTransportC1 ("domain".data)
        ("https://domain".data :: ["https://www.domain".data]) none =
      mainLoop exTransportC1 ("domain".data) ["https://www.domain".data]
        (some ("403 Forbidden".data)) ∧
    appLoop exTransportC1
        ("https://www.domain".data :: []) (some ("403 Forbidden".data)) =
      ("https://www.domain".data,
        if classify (pyLower ("<html>a hubspot page</html>".data))
        then ("Yes".data) else ("No".data)) :=
  ⟨((claim_C1_variant_order_first_success ("domain".data) exTransportC1).2.1
      "https://domain".data ["https://www.domain".data] none
      "403 Client Error".data ("forbidden".data) "https://domain".data (by decide)).1,
   ((claim_C1_variant_order_first_success ("domain".data) exTransportC1).2.2.1
      "https://www.domain".data [] (some ("403 Forbidden".data)) 200 []
      "<html>a hubspot page</html>".data ("https://www.domain".data)
      (by decide) (by decide)).2⟩

/-! ## Claim C2: failure locality and fallback -/

/-- Counterexample to claim C2 as stated: in the web prober a timeout
does not trigger fallback to the next URL variant — the probe stops with
`Error: Timeout` even though continuing to the next variant would have
produced a Yes result. -/
theorem claim_C2_counterexample :
    check_hubspot_app exTransportC2 ("domain".data) = ([], "Error: Timeout".data) ∧
    appLoop exTransportC2
        [ "https://www.domain".data, "http://domain".data,
          "http://www.domain".data ] (some ("Timeout".data)) =
      ("https://www.domain".data, "Yes".data) ∧
    check_hubspot_app exTransportC2 ("domain".data) ≠
      appLoop exTransportC2
        [ "https://www.domain".data, "http://domain".data,
          "http://www.domain".data ] (some ("Timeout".data)) := by
  decide

theorem appLoop_all_fail_shape (T : Transport) :
    ∀ (L : List Str) (le : Option Str),
      (∀ v ∈ L, usableOutcome (T v) = false) →
      ∃ r, appLoop T L le = ([], "Error: ".data ++ r) := by
  intro L
  induction L with
  | nil =>
    intro le _
    exact ⟨pyOrElse le ("Unknown".data), rfl⟩
  | cons u rest ih =>
    intro le hall
    by_cases ht : T u = .timeout
    · exact ⟨"Timeout".data, appLoop_timeout_step T u rest le ht⟩
    · rw [appLoop_fail_step T u rest le (hall u (List.mem_cons_self u rest)) ht]
      exact ih _ (fun v hv => hall v (List.mem_cons_of_mem u hv))

/-- Claim C2 (amended): every failure kind is handled inside the prober
and records a reason; 403, TLS, connection and other-request failures
advance to the next variant in both probers; a timeout advances in the
CLI prober but aborts the remaining variants in the web prober with an
immediate `Error: Timeout` result; and when every variant fails, both
probers still return a result with an empty URL and an Error
classification rather than propagating a fatal error. -/
theorem claim_C2_failure_locality (T : Transport) (domain u : Str)
    (rest : List Str) (le : Option Str) :
    (usableOutcome (T u) = false →
      mainLoop T domain (u :: rest) le =
        mainLoop T domain rest (some (failReason (T u)))) ∧
    (usableOutcome (T u) = false → T u ≠ .timeout →
      appLoop T (u :: rest) le = appLoop T rest (some (failReason (T u)))) ∧
    (T u = .timeout →
      mainLoop T domain (u :: rest) le =
        mainLoop T domain rest (some ("Timeout".data)) ∧
      appLoop T (u :: rest) le = ([], "Error: Timeout".data)) ∧
    ((∀ v ∈ urls_to_try domain, usableOutcome (T v) = false) →
      (check_hubspot_main T domain).url = [] ∧
      (∃ r, r ≠ [] ∧
        mainClassification (check_hubspot_main T domain) = .error r) ∧
      (check_hubspot_app T domain).1 = [] ∧
      (∃ r, appClassification (check_hubspot_app T domain) = .error r)) := by
  refine ⟨fun hu => mainLoop_fail_step T domain u rest le hu,
    fun hu ht => appLoop_fail_step T u rest le hu ht, fun ht => ⟨?_, ?_⟩, fun hall => ?_⟩
  · have := mainLoop_fail_step T domain u rest le (by simp [usableOutcome, ht])
    rw [this, ht]
    rfl
  · exact appLoop_timeout_step T u rest le ht
  · have hmain := mainLoop_exhaust T domain (urls_to_try domain) hall none (by simp [urls_to_try])
    obtain ⟨r, happ⟩ := appLoop_all_fail_shape T (urls_to_try domain) none hall
    have hne : pyOrElse (some (failReason (T ((urls_to_try domain).getLastD []))))
        "Unknown Error".data ≠ [] := pyOrElse_ne_nil _ (by decide)
    refine ⟨?_, ⟨_, hne, ?_⟩, ?_, ⟨r, ?_⟩⟩
    · rw [check_hubspot_main, hmain]
    · rw [check_hubspot_main, hmain]
      simp only [mainClassification]
      rw [if_neg hne]
    · rw [check_hubspot_app, happ]
    · rw [check_hubspot_app, happ]
      exact appClassification_err [] r

/-- Witness for claim C2: the all-variants-fail conclusion discharged on
an all-TLS-failure transport. -/
theorem claim_C2_witness :
    (check_hubspot_main (fun _ => FetchOutcome.sslError) "x.com".data).url = [] ∧
    (∃ r, r ≠ [] ∧
      mainClassification
        (check_hubspot_main (fun _ => FetchOutcome.sslError) "x.com".data) =
          .error r) ∧
    (check_hubspot_app (fun _ => FetchOutcome.sslError) "x.com".data).1 = [] ∧
    (∃ r, appClassification
        (check_hubspot_app (fun _ => FetchOutcome.sslError) "x.com".data) =
          .error r) :=
  (claim_C2_failure_locality (fun _ => FetchOutcome.sslError) "x.com".data
    "u".data [] none).2.2.2 (by decide)

/-! ## Claim C5: total-failure result -/

/-- Counterexample to claim C5 as stated: with an empty recorded reason
the CLI prober reports `Unknown Error`, which is neither the recorded
reason nor the claim's `Unknown` fallback. -/
theorem claim_C5_counterexample :
    check_hubspot_main exTransportC5 ("x.com".data) =
      { domain := "x.com".data, has_hubspot := false, url := [],
        error := "Unknown Error".data } ∧
    failReason (exTransportC5 ("http://www.x.com".data)) = [] ∧
    "Unknown Error".data ≠ "Unknown".data ∧
    ("Unknown Error".data : Str) ≠ [] := by
  decide

/-- Claim C5 (amended): when no variant yields a usable body the result
carries an empty resolved URL and classification Error(last recorded
reason); when that reason is empty or absent the CLI prober falls back to
`Unknown Error` and the web prober to `Unknown`; on the all-connection-
error transport both probers yield `(url="", Error("Connection
Error"))`. -/
theorem claim_C5_total_failure (domain : Str) (T : Transport) :
    ((∀ v ∈ urls_to_try domain, usableOutcome (T v) = false) →
      check_hubspot_main T domain =
        { domain := domain, has_hubspot := false, url := [],
          error := pyOrElse
            (some (failReason (T ("http://www.".data ++ domain))))
            "Unknown Error".data }) ∧
    ((∀ v ∈ urls_to_try domain,
        usableOutcome (T v) = false ∧ T v ≠ .timeout) →
      check_hubspot_app T domain =
        ([], "Error: ".data ++
          pyOrElse (some (failReason (T ("http://www.".data ++ domain))))
            "Unknown".data)) ∧
    mainOutcome
        (check_hubspot_main (fun _ => FetchOutcome.connError) "x.com".data) =
      ([], .error ("Connection Error".data)) ∧
    appOutcome
        (check_hubspot_app (fun _ => FetchOutcome.connError) "x.com".data) =
      ([], .error ("Connection Error".data)) := by
  refine ⟨fun hall => ?_, fun hall => ?_, by decide, by decide⟩
  · rw [check_hubspot_main]
    exact mainLoop_exhaust T domain (urls_to_try domain) hall none
      (by simp [urls_to_try])
  · rw [check_hubspot_app]
    exact appLoop_exhaust T (urls_to_try domain) hall none
      (by simp [urls_to_try])

/-- Witness for claim C5 on an all-TLS-failure transport. -/
theorem claim_C5_witness :
    check_hubspot_main (fun _ => FetchOutcome.sslError) "y.org".data =
      { domain := "y.org".data, has_hubspot := false, url := [],
        error := "SSL Error".data } ∧
    check_hubspot_app (fun _ => FetchOutcome.sslError) "y.org".data =
      ([], "Error: SSL Error".data) :=
  ⟨(claim_C5_total_failure ("y.org".data)
      (fun _ => FetchOutcome.sslError)).1 (by decide),
   (claim_C5_total_failure ("y.org".data)
      (fun _ => FetchOutcome.sslError)).2.1 (by decide)⟩

/-! ## Claim C3: CLI / web prober agreement -/

theorem appClassification_yes (u : Str) :
    appClassification (u, "Yes".data) = .yes := rfl

theorem appClassification_no (u : Str) :
    appClassification (u, "No".data) = .no := rfl

theorem loops_agree (T : Transport) (d : Str) :
    ∀ L : List Str, (∀ v ∈ L, benignOutcome (T v)) →
    ∀ le : Option Str,
      ((∃ r, le = some r ∧ r ≠ []) ∨ (le = none ∧ L ≠ [])) →
      mainOutcome (mainLoop T d L le) = appOutcome (appLoop T L le) := by
  intro L
  induction L with
  | nil =>
    intro _ le hinv
    rcases hinv with ⟨r, hle, hr⟩ | ⟨_, habs⟩
    · subst hle
      have hpy1 : pyOrElse (some r) "Unknown Error".data = r := by
        simp [pyOrElse, hr]
      have hpy2 : pyOrElse (some r) "Unknown".data = r := by
        simp [pyOrElse, hr]
      simp only [mainLoop, appLoop, hpy1, hpy2, mainOutcome, appOutcome]
      rw [appClassification_err]
      simp only [mainClassification]
      rw [if_neg hr]
    · exact absurd rfl habs
  | cons u rest ih =>
    intro hall le _
    obtain ⟨ht, hfr⟩ := hall u (List.mem_cons_self u rest)
    by_cases hu : usableOutcome (T u) = true
    · cases hTu : T u with
      | success st em b fu =>
        have hok : isHttpError st = false := by
          rw [hTu] at hu
          simpa [usableOutcome] using hu
        rw [mainLoop_usable_step T d u rest le st em b fu hTu hok,
            appLoop_usable_step T u rest le st em b fu hTu hok]
        cases hcl : classify (pyLower b) with
        | true => rfl
        | false => rfl
      | sslError =>
        rw [hTu] at hu
        simp [usableOutcome] at hu
      | connError =>
        rw [hTu] at hu
        simp [usableOutcome] at hu
      | timeout =>
        rw [hTu] at hu
        simp [usableOutcome] at hu
      | otherError m =>
        rw [hTu] at hu
        simp [usableOutcome] at hu
    · have hu' : usableOutcome (T u) = false := by
        simpa using hu
      rw [mainLoop_fail_step T d u rest le hu',
          appLoop_fail_step T u rest le hu' ht]
      exact ih (fun v hv => hall v (List.mem_cons_of_mem u hv)) _
        (Or.inl ⟨failReason (T u), rfl, hfr hu'⟩)

/-- Counterexample to claim C3 as stated: on the timeout-then-success
transport the CLI prober continues past the timeout and answers Yes at
the www variant, while the web prober aborts with `Error: Timeout`. -/
theorem claim_C3_counterexample :
    mainOutcome (check_hubspot_main exTransportC2 ("domain".data)) =
      ("https://www.domain".data, .yes) ∧
    appOutcome (check_hubspot_app exTransportC2 ("domain".data)) =
      ([], .error ("Timeout".data)) ∧
    mainOutcome (check_hubspot_main exTransportC2 ("domain".data)) ≠
      appOutcome (check_hubspot_app exTransportC2 ("domain".data)) := by
  decide

/-- Claim C3 (amended): for every transport in which no tried variant
times out and every failure records a non-empty reason, the CLI and web
probers produce the same resolved URL and the same classification; they
diverge on timeouts (the CLI prober continues to the next variant, the
web prober aborts) and on the empty-reason fallback string. -/
theorem claim_C3_cli_web_agreement (domain : Str) (T : Transport)
    (h : ∀ v ∈ urls_to_try domain, benignOutcome (T v)) :
    mainOutcome (check_hubspot_main T domain) =
      appOutcome (check_hubspot_app T domain) :=
  loops_agree T domain (urls_to_try domain) h none
    (Or.inr ⟨rfl, by simp [urls_to_try]⟩)

/-- Witness for claim C3 on an all-connection-error transport. -/
theorem claim_C3_witness :
    mainOutcome
        (check_hubspot_main (fun _ => FetchOutcome.connError) "w.net".data) =
      appOutcome
        (check_hubspot_app (fun _ => FetchOutcome.connError) "w.net".data) :=
  claim_C3_cli_web_agreement ("w.net".data) (fun _ => FetchOutcome.connError)
    (by decide)

/-! ## Claim C7: aggregator round-trip -/

theorem lookupRes_map (probe : Str → Str × Str) :
    ∀ (l : List Str) (d : Str), d ∈ l →
      lookupRes (l.map (fun x => (x, probe x))) d = some (probe d) := by
  intro l
  induction l with
  | nil =>
    intro d hd
    cases hd
  | cons k rest ih =>
    intro d hd
    by_cases hk : k = d
    · subst hk
      simp [lookupRes]
    · have hmem : d ∈ rest := by
        cases List.mem_cons.mp hd with
        | inl h => exact absurd h.symm hk
        | inr h => exact h
      simp [lookupRes, hk, ih d hmem]

theorem mem_domains_to_scan {rows : List (List Str)} {col : Nat}
    {row : List Str} {d : Str} (hrow : row ∈ rows)
    (hd : rowDomain col row = some d) : d ∈ domains_to_scan rows col := by
  unfold domains_to_scan
  rw [(List.perm_insertionSort _ _).mem_iff, List.mem_dedup, List.mem_filterMap]
  exact ⟨row, hrow, hd⟩

theorem process_output_rows_include_all (rows : List (List Str)) (col : Nat)
    (probe : Str → Str × Str) :
    process_output_rows rows col probe true =
      rows.filterMap (fun row =>
        if col < row.length then
          some (row ++
            (match truthyDomain (row.getD col []) with
             | some d => [(probe d).1, (probe d).2]
             | none => [[], []]))
        else none) := by
  unfold process_output_rows
  refine List.filterMap_congr ?_
  intro row hrow
  by_cases hlen : col < row.length
  · rw [if_pos hlen, if_pos hlen]
    cases hdom : truthyDomain (row.getD col []) with
    | none => rfl
    | some d =>
      have hmem : d ∈ domains_to_scan rows col :=
        mem_domains_to_scan hrow (by simpa [rowDomain, hlen] using hdom)
      unfold domain_results_list
      simp only [lookupRes_map probe _ d hmem]
      simp
  · rw [if_neg hlen, if_neg hlen]

theorem process_output_rows_filtered (rows : List (List Str)) (col : Nat)
    (probe : Str → Str × Str) :
    process_output_rows rows col probe false =
      rows.filterMap (fun row =>
        if col < row.length then
          match truthyDomain (row.getD col []) with
          | some d =>
            if (probe d).2 = "Yes".data then
              some (row ++ [(probe d).1, (probe d).2])
            else none
          | none => none
        else none) := by
  unfold process_output_rows
  refine List.filterMap_congr ?_
  intro row hrow
  by_cases hlen : col < row.length
  · rw [if_pos hlen, if_pos hlen]
    cases hdom : truthyDomain (row.getD col []) with
    | none => rfl
    | some d =>
      have hmem : d ∈ domains_to_scan rows col :=
        mem_domains_to_scan hrow (by simpa [rowDomain, hlen] using hdom)
      unfold domain_results_list
      simp only [lookupRes_map probe _ d hmem]
      by_cases hs : (probe d).2 = "Yes".data
      · simp [hs]
      · simp [hs]
  · rw [if_neg hlen, if_neg hlen]

/-- Counterexample to claim C7 as stated: with include-all set, a row
too short to reach the email column (here the empty row) is dropped
rather than kept with two empty fields — the `elif include_all` of
src/app.py line 178 is nested inside the length guard. -/
theorem claim_C7_counterexample :
    process_csv ["email".data] [["a@x.com".data], []]
        (fun _ => ("u".data, "Yes".data)) true =
      [["a@x.com".data, "u".data, "Yes".data]] ∧
    [([] : Str), []] ∉
      process_csv ["email".data] [["a@x.com".data], []]
        (fun _ => ("u".data, "Yes".data)) true ∧
    (process_csv ["email".data] [["a@x.com".data], []]
        (fun _ => ("u".data, "Yes".data)) true).length = 1 := by
  decide

/-- Claim C7 (amended): the prober is invoked exactly once per unique
extracted domain; with include-all set, each row reaching the email
column gains the mapped `(resolved_url, classification)` pair — or two
empty fields when its extraction fails — while rows too short for the
email column are always dropped; with include-all unset the output is
exactly the rows whose domain classification is `Yes`; and the spec's
3-rows/2-domains example invokes the prober exactly twice. -/
theorem claim_C7_aggregator_roundtrip (header : List Str)
    (rows : List (List Str)) (probe : Str → Str × Str) :
    (domains_to_scan rows (find_email_col header)).Nodup ∧
    (domain_results_list rows (find_email_col header) probe).length =
      (domains_to_scan rows (find_email_col header)).length ∧
    (∀ d, d ∈ domains_to_scan rows (find_email_col header) ↔
      ∃ row ∈ rows, rowDomain (find_email_col header) row = some d) ∧
    process_csv header rows probe true =
      rows.filterMap (fun row =>
        if find_email_col header < row.length then
          some (row ++
            (match truthyDomain (row.getD (find_email_col header) []) with
             | some d => [(probe d).1, (probe d).2]
             | none => [[], []]))
        else none) ∧
    process_csv header rows probe false =
      rows.filterMap (fun row =>
        if find_email_col header < row.length then
          match truthyDomain (row.getD (find_email_col header) []) with
          | some d =>
            if (probe d).2 = "Yes".data then
              some (row ++ [(probe d).1, (probe d).2])
            else none
          | none => none
        else none) ∧
    domains_to_scan [["a@x.com".data], ["b@x.com".data], ["c@y.com".data]] 0 =
      ["x.com".data, "y.com".data] := by
  refine ⟨?_, List.length_map _ _, ?_,
    process_output_rows_include_all rows (find_email_col header) probe,
    process_output_rows_filtered rows (find_email_col header) probe,
    by decide⟩
  · exact ((List.perm_insertionSort _ _).nodup_iff).mpr (List.nodup_dedup _)
  · intro d
    unfold domains_to_scan
    rw [(List.perm_insertionSort _ _).mem_iff, List.mem_dedup, List.mem_filterMap]

/-! ## Claim C10: CLI reader first-row rescue -/

/-- Claim C10: in the CLI CSV reader, when no first-row cell matches
`email`, `e-mail` or `mail` (case-insensitively, after lowering and
stripping) but the first cell contains an at-sign, the first row is
treated as data: its first cell heads the returned email list and column
0 is used for all following rows. -/
theorem claim_C10_header_rescue (header : List Str) (rest : List (List Str))
    (hne : header ≠ [])
    (hnomatch : ∀ h ∈ header,
      pyStrip (pyLower h) ∉ [ "email".data, "e-mail".data, "mail".data ])
    (hat : '@' ∈ header.getD 0 []) :
    read_emails_from_csv (header :: rest) =
      header.getD 0 [] :: rest.filterMap (fun row =>
        if row ≠ [] ∧ 0 < row.length then some (row.getD 0 []) else none) := by
  have hno : ∀ pat ∈ [ "email".data, "e-mail".data, "mail".data ],
      pat ∉ header.map (fun h => pyStrip (pyLower h)) := by
    intro pat hpat hmem
    obtain ⟨h, hh, hf⟩ := List.mem_map.mp hmem
    exact hnomatch h hh (hf ▸ hpat)
  simp only [read_emails_from_csv, if_neg hne]
  rw [if_neg (hno _ (by decide)), if_neg (hno _ (by decide)),
    if_neg (hno _ (by decide)), if_pos hat]
  rfl

/-- Witness for claim C10 at a concrete header-less CSV. -/
theorem claim_C10_witness :
    read_emails_from_csv [["a@x.com".data], ["b@y.com".data]] =
      ["a@x.com".data, "b@y.com".data] :=
  (claim_C10_header_rescue ["a@x.com".data] [["b@y.com".data]]
    (by decide) (by decide) (by decide)).trans (by decide)

/-- Witness for claim C8 at a body containing the longer pattern. -/
theorem claim_C8_witness :
    classify ("x js.hs-scripts.com y".data) =
      classify_reduced ("x js.hs-scripts.com y".data) ∧
    "hs-scripts.com".data <:+: "x js.hs-scripts.com y".data :=
  ⟨(claim_C8_pattern_redundancy ("x js.hs-scripts.com y".data)).1,
   (claim_C8_pattern_redundancy ("x js.hs-scripts.com y".data)).2 (by decide)⟩
